import Mathlib

/-!
Shallow embedding of the sybil-network sequencer core
(`go_sequencer/common/l1tx.go`, the `Idx`/`Account` definitions of
`common`, and the StateDB account operations exercised by
`test/til/txs_test.go`), together with theorems settling the spec claims.

Bytes are modelled as `Nat` values (< 256 by construction in every list
this file builds), Go `uint64`/`uint16`/`byte` conversions as explicit
`% 2^w`, Go `*big.Int` as `Option Int` (`none` = nil pointer), fallible
Go functions as `Except GoErr`, and functions that can additionally
panic (nil dereference, out-of-range slice) as `Option (Except GoErr _)`
with `none` standing for a panic.
-/

/-- 64-bit mask, `2^64 - 1`. -/
def mask64 : Nat := 2 ^ 64 - 1

/-- `binary.BigEndian.PutUint64`: the 8 big-endian bytes of `v mod 2^64`. -/
def goPutUint64BE (v : Nat) : List Nat :=
  let u := v % 2 ^ 64
  [u / 2 ^ 56 % 256, u / 2 ^ 48 % 256, u / 2 ^ 40 % 256, u / 2 ^ 32 % 256,
   u / 2 ^ 24 % 256, u / 2 ^ 16 % 256, u / 2 ^ 8 % 256, u % 256]

/-- `binary.BigEndian.PutUint16`: the 2 big-endian bytes of `v mod 2^16`. -/
def goPutUint16BE (v : Nat) : List Nat :=
  let u := v % 2 ^ 16
  [u / 2 ^ 8 % 256, u % 256]

/-- `binary.BigEndian.Uint64` on a byte list: big-endian accumulation. -/
def goUint64BE (b : List Nat) : Nat :=
  b.foldl (fun acc x => acc * 256 + x) 0

/-- Go `uint64(n)` on an `int64` value: two's-complement wraparound. -/
def toUint64 (n : Int) : Nat := (n % (2 ^ 64 : Int)).toNat

/-- Go `uint16(n)` on an `int` value: truncation mod `2^16`. -/
def toUint16 (n : Int) : Nat := (n % (2 ^ 16 : Int)).toNat

/-- Go `(*big.Int).Int64()` as implemented by math/big: the low 64 bits of
the absolute value, two's-complement interpreted, with the sign applied. -/
def goBigIntInt64 (x : Int) : Int :=
  let lo : Nat := x.natAbs % 2 ^ 64
  let v : Int := if lo < 2 ^ 63 then (lo : Int) else (lo : Int) - 2 ^ 64
  if x < 0 then -v else v

/-- Go slice expression `b[i:j]`: defined (as `some`) exactly when
`i ≤ j ≤ len(b)`, otherwise the program panics (`none`). -/
def goSlice (b : List Nat) (i j : Nat) : Option (List Nat) :=
  if i ≤ j ∧ j ≤ b.length then some ((b.drop i).take (j - i)) else none

/-! ## Keccak-256 (legacy padding 0x01), the hash behind
`ethCrypto.Keccak256Hash`.  State: 25 lanes of 64 bits, lane `(x, y)` at
flat index `x + 5*y`. -/

/-- Lane read with default 0. -/
def getLane (s : List Nat) (i : Nat) : Nat := s.getD i 0

/-- 64-bit left rotation. -/
def rotl64 (x r : Nat) : Nat :=
  ((x <<< r) ||| (x >>> (64 - r))) &&& mask64

/-- Keccak round constants. -/
def keccakRC : List Nat :=
  [0x1, 0x8082, 0x800000000000808a] ++
    [0x8000000080008000, 0x808b, 0x80000001] ++
    [0x8000000080008081, 0x8000000000008009, 0x8a] ++
    [0x88, 0x80008009, 0x8000000a] ++
    [0x8000808b, 0x800000000000008b, 0x8000000000008089] ++
    [0x8000000000008003, 0x8000000000008002, 0x8000000000000080] ++
    [0x800a, 0x800000008000000a, 0x8000000080008081] ++
    [0x8000000000008080, 0x80000001, 0x8000000080008008]

/-- Keccak rho rotation offsets, indexed by `x + 5*y`. -/
def keccakRot : List Nat :=
  [0, 1, 62, 28, 27] ++
    [36, 44, 6, 55, 20] ++
    [3, 10, 43, 25, 39] ++
    [41, 45, 15, 21, 8] ++
    [18, 2, 61, 56, 14]

/-- Keccak theta step. -/
def theta (s : List Nat) : List Nat :=
  let c := List.ofFn fun x : Fin 5 =>
    getLane s x.val ^^^ getLane s (x.val + 5) ^^^ getLane s (x.val + 10) ^^^
      getLane s (x.val + 15) ^^^ getLane s (x.val + 20)
  let d := List.ofFn fun x : Fin 5 =>
    getLane c ((x.val + 4) % 5) ^^^ rotl64 (getLane c ((x.val + 1) % 5)) 1
  List.ofFn fun i : Fin 25 => getLane s i.val ^^^ getLane d (i.val % 5)

/-- Keccak rho and pi steps: output lane `(X, Y)` is the rotated source
lane `((X + 3Y) mod 5, X)`. -/
def rhoPi (s : List Nat) : List Nat :=
  List.ofFn fun i : Fin 25 =>
    let xo := i.val % 5
    let yo := i.val / 5
    let src := (xo + 3 * yo) % 5 + 5 * xo
    rotl64 (getLane s src) (getLane keccakRot src)

/-- Keccak chi step. -/
def chi (s : List Nat) : List Nat :=
  List.ofFn fun i : Fin 25 =>
    let x := i.val % 5
    let y := i.val / 5
    getLane s i.val ^^^
      ((getLane s ((x + 1) % 5 + 5 * y) ^^^ mask64) &&& getLane s ((x + 2) % 5 + 5 * y))

/-- Keccak iota step: xor the round constant into lane 0. -/
def iotaStep (rc : Nat) (s : List Nat) : List Nat :=
  match s with
  | [] => []
  | a :: rest => (a ^^^ rc) :: rest

/-- One Keccak-f[1600] round. -/
def keccakRound (s : List Nat) (rc : Nat) : List Nat :=
  iotaStep rc (chi (rhoPi (theta s)))

/-- Keccak-f[1600]: 24 rounds. -/
def keccakF (s : List Nat) : List Nat :=
  keccakRC.foldl keccakRound s

/-- A lane from 8 little-endian bytes. -/
def laneFromBytes (b : List Nat) : Nat :=
  b.foldr (fun x acc => acc * 256 + x) 0

/-- The 8 little-endian bytes of a lane. -/
def laneToBytes (v : Nat) : List Nat :=
  [v % 256, v / 2 ^ 8 % 256, v / 2 ^ 16 % 256, v / 2 ^ 24 % 256,
   v / 2 ^ 32 % 256, v / 2 ^ 40 % 256, v / 2 ^ 48 % 256, v / 2 ^ 56 % 256]

/-- Absorb one 136-byte block into the state and permute. -/
def absorbBlock (s : List Nat) (block : List Nat) : List Nat :=
  keccakF (List.ofFn fun i : Fin 25 =>
    if i.val < 17 then getLane s i.val ^^^ laneFromBytes ((block.drop (8 * i.val)).take 8)
    else getLane s i.val)

/-- Absorb `k` rate-sized blocks of the padded message. -/
def keccakAbsorbBlocks : Nat → List Nat → List Nat → List Nat
  | 0, s, _ => s
  | k + 1, s, m => keccakAbsorbBlocks k (absorbBlock s (m.take 136)) (m.drop 136)

/-- Legacy Keccak multi-rate padding (domain byte 0x01) to a multiple of
the 136-byte rate. -/
def keccakPad (m : List Nat) : List Nat :=
  let r := 136 - m.length % 136
  if r = 1 then m ++ [0x81]
  else m ++ 0x01 :: (List.replicate (r - 2) 0 ++ [0x80])

/-- Keccak-256 of a byte list (32 bytes), as computed by go-ethereum's
`crypto.Keccak256`. -/
def keccak256 (m : List Nat) : List Nat :=
  let p := keccakPad m
  let s := keccakAbsorbBlocks (p.length / 136) (List.replicate 25 0) p
  laneToBytes (getLane s 0) ++ laneToBytes (getLane s 1) ++
    laneToBytes (getLane s 2) ++ laneToBytes (getLane s 3)

/-! ## Errors (`common.Wrap` is modelled as the identity; each distinct
error site of the source gets its own constructor). -/

/-- Error values produced by the embedded functions. -/
inductive GoErr where
  /-- `ErrIdxOverflow` from `Idx.Bytes`. -/
  | errIdxOverflow
  /-- `IdxFromBytes`: "can not parse Idx, bytes len %d, expected 6". -/
  | errIdxLen (got : Nat)
  /-- `SetType`: "cannot determine type of L1Tx, invalid ToIdx value: %d". -/
  | errInvalidToIdx (v : Nat)
  /-- `SetType`: "cannot determine type of L1Tx, invalid FromIdx value: %d". -/
  | errInvalidFromIdx (v : Nat)
  /-- `SetID`: "L1Tx.UserOrigin == true && L1Tx.ToForgeL1TxsNum == nil". -/
  | errNilToForgeL1TxsNum
  /-- `SetID`: "L1Tx.UserOrigin == false && L1Tx.BatchNum == nil". -/
  | errNilBatchNum
  /-- `L1UserTxFromBytes`: "cannot parse L1Tx bytes, expected length %d,
  current: %d" (the source formats the literal 68 as the expected length). -/
  | errParseL1TxLen (shown cur : Nat)
  /-- `L1CoordinatorTxFromBytes`: "cannot parse L1CoordinatorTx bytes,
  expected length %d, current: %d". -/
  | errParseL1CoordTxLen (shown cur : Nat)
  /-- StateDB `ErrAccountAlreadyExists`. -/
  | errAccountAlreadyExists
  /-- KV-store `db.ErrNotFound`. -/
  | errNotFound
  /-- An error produced by an external cryptographic routine
  (`HashToSign`, `Ecrecover`, `UnmarshalPubkey`), tagged by a code. -/
  | errCrypto (code : Nat)
deriving DecidableEq, Repr

/-- Decidable equality for `Except` results. -/
instance {ε α : Type} [DecidableEq ε] [DecidableEq α] : DecidableEq (Except ε α) :=
  fun x y =>
    match x, y with
    | .error a, .error b =>
        if h : a = b then .isTrue (by rw [h]) else .isFalse (by simp [h])
    | .ok a, .ok b =>
        if h : a = b then .isTrue (by rw [h]) else .isFalse (by simp [h])
    | .error _, .ok _ => .isFalse (by simp)
    | .ok _, .error _ => .isFalse (by simp)

/-! ## Idx (`common`, source file with `Account`/`Idx`) -/

/-- `IdxBytesLen`. -/
def IdxBytesLen : Nat := 6

/-- `maxIdxValue`: `2^48 - 1`. -/
def maxIdxValue : Nat := 0xffffffffffff

/-- `UserThreshold`. -/
def UserThreshold : Nat := 256

/-- `IdxUserThreshold` (the same numeric threshold is used for the
`AccountIdx` fields of `L1Tx`). -/
def IdxUserThreshold : Nat := UserThreshold

/-- `Idx.Bytes`: fails with `ErrIdxOverflow` above `maxIdxValue`,
otherwise writes the 8 big-endian bytes and keeps bytes `[2:8]`. -/
def Idx.Bytes (idx : Nat) : Except GoErr (List Nat) :=
  if idx > maxIdxValue then .error .errIdxOverflow
  else .ok ((goPutUint64BE idx).drop 2)

/-- `IdxFromBytes`: requires length 6, left-pads to 8 bytes and reads a
big-endian `uint64`. -/
def IdxFromBytes (b : List Nat) : Except GoErr Nat :=
  if b.length ≠ IdxBytesLen then .error (.errIdxLen b.length)
  else .ok (goUint64BE (List.replicate 2 0 ++ b))

/-- The 6-byte big-endian encoding of an index, written from the spec's
words ("6-byte big-endian") for comparison with `Idx.Bytes`. -/
def beBytes6 (idx : Nat) : List Nat :=
  [idx / 2 ^ 40 % 256, idx / 2 ^ 32 % 256, idx / 2 ^ 24 % 256,
   idx / 2 ^ 16 % 256, idx / 2 ^ 8 % 256, idx % 256]

/-! ## Transaction model (`common/l1tx.go`) -/

/-- The L1 transaction types (`TxType` string constants of the source). -/
inductive TxType where
  | TxTypeCreateAccountDeposit
  | TxTypeCreateAccountDepositTransfer
  | TxTypeDeposit
  | TxTypeForceExit
  | TxTypeForceTransfer
  | TxTypeDepositTransfer
deriving DecidableEq, Repr

/-- `TxIDPrefixL1UserTx`.  Modelled from the spec: the TxID domain prefix
byte for L1 user txs is `0x00` (the defining constant is outside `src/`). -/
def TxIDPrefixL1UserTx : Nat := 0x00

/-- `TxIDPrefixL1CoordTx`.  Modelled from the spec: the TxID domain prefix
byte for L1 coordinator txs is `0x01` (the defining constant is outside
`src/`). -/
def TxIDPrefixL1CoordTx : Nat := 0x01

/-- The `L1Tx` record.  Go `*int64`/`*big.Int`/`*BatchNum` fields are
`Option`; the Go field `Type` (a string, `""` when unset) is `txType :
Option TxType`; `TxID` is a 33-byte list. -/
structure L1Tx where
  txID : List Nat := List.replicate 33 0
  toForgeL1TxsNum : Option Int := none
  position : Int := 0
  userOrigin : Bool := false
  fromIdx : Nat := 0
  effectiveFromIdx : Nat := 0
  fromEthAddr : List Nat := List.replicate 20 0
  fromBJJ : List Nat := List.replicate 32 0
  toIdx : Nat := 0
  amount : Option Int := none
  effectiveAmount : Option Int := none
  depositAmount : Option Int := none
  effectiveDepositAmount : Option Int := none
  ethBlockNum : Int := 0
  l1Fee : Option Int := none
  txType : Option TxType := none
  batchNum : Option Int := none
deriving DecidableEq, Repr

/-- `L1Tx.SetType`: infers the transaction type from
`(FromIdx, ToIdx, DepositAmount)`.  The result is `none` when the Go code
would panic (`DepositAmount.Int64()` on a nil `*big.Int`). -/
def L1Tx.SetType (tx : L1Tx) : Option (Except GoErr L1Tx) :=
  if tx.fromIdx = 0 then
    if tx.toIdx = 0 then
      some (.ok { tx with txType := some .TxTypeCreateAccountDeposit })
    else if tx.toIdx ≥ IdxUserThreshold then
      some (.ok { tx with txType := some .TxTypeCreateAccountDepositTransfer })
    else
      some (.error (.errInvalidToIdx tx.toIdx))
  else if tx.fromIdx ≥ IdxUserThreshold then
    if tx.toIdx = 0 then
      some (.ok { tx with txType := some .TxTypeDeposit })
    else if tx.toIdx = 1 then
      some (.ok { tx with txType := some .TxTypeForceExit })
    else if tx.toIdx ≥ IdxUserThreshold then
      match tx.depositAmount with
      | none => none
      | some d =>
        if goBigIntInt64 d = 0 then
          some (.ok { tx with txType := some .TxTypeForceTransfer })
        else
          some (.ok { tx with txType := some .TxTypeDepositTransfer })
    else
      some (.error (.errInvalidToIdx tx.toIdx))
  else
    some (.error (.errInvalidFromIdx tx.fromIdx))

/-- `L1Tx.SetID`: derives the 33-byte `TxID`.  For a user-origin tx the
hashed bytes are `ToForgeL1TxsNum (8 BE) ‖ Position (2 BE)`; for a
coordinator tx, `BatchNum (8 BE) ‖ Position (2 BE)`; the prefix byte is
written to `TxID[0]` and the 32 Keccak-256 bytes to `TxID[1:]`. -/
def L1Tx.SetID (tx : L1Tx) : Except GoErr L1Tx :=
  if tx.userOrigin then
    match tx.toForgeL1TxsNum with
    | none => .error .errNilToForgeL1TxsNum
    | some n =>
      let b := goPutUint64BE (toUint64 n) ++ goPutUint16BE (toUint16 tx.position)
      .ok { tx with txID := TxIDPrefixL1UserTx :: keccak256 b }
  else
    match tx.batchNum with
    | none => .error .errNilBatchNum
    | some bn =>
      let b := goPutUint64BE (toUint64 bn) ++ goPutUint16BE (toUint16 tx.position)
      .ok { tx with txID := TxIDPrefixL1CoordTx :: keccak256 b }

/-! ## L1 user tx wire decoding (`L1UserTxFromBytes`) -/

/-- `RollupConstL1UserTotalBytes`.  Modelled from the spec: the constant
is defined outside `src/`; the normative wire format is "fixed 78 bytes:
`FromEthAddr(20) ‖ FromBJJ(32) ‖ FromIdx(6) ‖ DepositAmount(5) ‖
Amount(5) ‖ [4 reserved] ‖ ToIdx(6)`". -/
def RollupConstL1UserTotalBytes : Nat := 78

/-- `RollupConstL1CoordinatorTotalBytes`.  Modelled from the spec:
"L1 coordinator tx, fixed 101 bytes" (the constant is outside `src/`). -/
def RollupConstL1CoordinatorTotalBytes : Nat := 101

/-- `SwapEndianness`.  Modelled from the spec: "byte-reverse for BJJ key
normalization" (the function is outside `src/`). -/
def SwapEndianness (b : List Nat) : List Nat := b.reverse

/-- go-ethereum `common.BytesToAddress`: keeps the last 20 bytes,
left-padding with zeros when shorter. -/
def BytesToAddress (b : List Nat) : List Nat :=
  if b.length ≤ 20 then List.replicate (20 - b.length) 0 ++ b
  else b.drop (b.length - 20)

/-- `Float40FromBytes(b).BigInt()`.  Modelled from the spec: a Float40 is
5 bytes whose high 5 bits are the exponent and low 35 bits the mantissa;
the decoded integer is `mantissa · 10^exponent` and decoding is exact
(the functions are outside `src/`). -/
def float40BigInt (b : List Nat) : Int :=
  let f : Nat := b.foldl (fun acc x => acc * 256 + x) 0
  let exponent : Nat := f >>> 35
  let mantissa : Nat := f &&& (2 ^ 35 - 1)
  (mantissa : Int) * (10 : Int) ^ exponent

/-- `L1UserTxFromBytes`: checks the total length then decodes the fields
at their fixed offsets.  `none` marks a Go panic (an out-of-range slice
access); slices are taken in source order. -/
def L1UserTxFromBytes (b : List Nat) : Option (Except GoErr L1Tx) :=
  if b.length ≠ RollupConstL1UserTotalBytes then
    some (.error (.errParseL1TxLen 68 b.length))
  else
    (goSlice b 0 20).bind fun ethAddrB =>
    (goSlice b 20 52).bind fun pkCompB =>
    let pkCompL := SwapEndianness pkCompB
    (goSlice b 52 58).bind fun fromIdxB =>
    match IdxFromBytes fromIdxB with
    | .error e => some (.error e)
    | .ok fromIdx =>
      (goSlice b 58 63).bind fun depB =>
      (goSlice b 63 68).bind fun amtB =>
      (goSlice b 72 78).bind fun toIdxB =>
      match IdxFromBytes toIdxB with
      | .error e => some (.error e)
      | .ok toIdx =>
        some (.ok { userOrigin := true
                    fromEthAddr := BytesToAddress ethAddrB
                    fromBJJ := pkCompL
                    fromIdx := fromIdx
                    depositAmount := some (float40BigInt depB)
                    amount := some (float40BigInt amtB)
                    toIdx := toIdx })

/-! ## L1 coordinator tx decoding (`L1CoordinatorTxFromBytes`).  The
external cryptographic routines (`AccountCreationAuth.HashToSign`,
`ethCrypto.Ecrecover`, `ethCrypto.UnmarshalPubkey`,
`ethCrypto.PubkeyToAddress`) are opaque to the claims, so the embedding
takes them as parameters; public keys are byte lists. -/

/-- The external cryptographic routines used by
`L1CoordinatorTxFromBytes`, passed as parameters. -/
structure CoordCrypto where
  hashToSign : List Nat → Nat → List Nat → Except GoErr (List Nat)
  ecrecover : List Nat → List Nat → Except GoErr (List Nat)
  unmarshalPubkey : List Nat → Except GoErr (List Nat)
  pubkeyToAddress : List Nat → List Nat

/-- `RollupConstEthAddressInternalOnly`.  Modelled from the spec: "an
internal sentinel Ethereum address" used for Babyjub-only coordinator
account creations (the constant is outside `src/`; its 20-byte value is
`0xff…ff` as in the upstream rollup constants). -/
def RollupConstEthAddressInternalOnly : List Nat := List.replicate 20 0xff

/-- `L1CoordinatorTxFromBytes`: checks the 101-byte length, reads
`v ‖ s ‖ r ‖ FromBJJ`, zeroes the amounts, and sets `FromEthAddr` either
from ECDSA recovery (`v > 0`, with Ethereum's 27 subtracted from `v` by
wrapping byte arithmetic) or to the internal sentinel address (`v = 0`). -/
def L1CoordinatorTxFromBytes (ops : CoordCrypto) (b : List Nat) (chainID : Nat)
    (tokamakAddress : List Nat) : Option (Except GoErr L1Tx) :=
  if b.length ≠ RollupConstL1CoordinatorTotalBytes then
    some (.error (.errParseL1CoordTxLen 101 b.length))
  else
    let v := b.getD 0 0
    (goSlice b 1 33).bind fun s =>
    (goSlice b 33 65).bind fun r =>
    (goSlice b 65 97).bind fun pkCompB =>
    let pkCompL := SwapEndianness pkCompB
    let tx : L1Tx := { userOrigin := false
                       fromBJJ := pkCompL
                       amount := some 0
                       depositAmount := some 0 }
    if v > 0 then
      let v27 := (v + 256 - 27) % 256
      let signature := r ++ s ++ [v27]
      match ops.hashToSign tx.fromBJJ (chainID % 2 ^ 64 % 2 ^ 16) tokamakAddress with
      | .error e => some (.error e)
      | .ok h =>
        match ops.ecrecover h signature with
        | .error e => some (.error e)
        | .ok pubKeyBytes =>
          match ops.unmarshalPubkey pubKeyBytes with
          | .error e => some (.error e)
          | .ok pubKey =>
            some (.ok { tx with fromEthAddr := ops.pubkeyToAddress pubKey })
    else
      some (.ok { tx with fromEthAddr := RollupConstEthAddressInternalOnly })

/-! ## Account and StateDB (the `Account` record is in `src/`; the
StateDB account operations are modelled from the spec, §4.C). -/

/-- The `Account` record (Go `common.Account`). -/
structure Account where
  idx : Nat := 0
  batchNum : Int := 0
  bjj : List Nat := List.replicate 32 0
  sign : Bool := false
  ay : Int := 0
  ethAddr : List Nat := List.replicate 20 0
  nonce : Nat := 0
  balance : Int := 0
deriving DecidableEq, Repr

/-- Association-list lookup of an account by `Idx`. -/
def findAccount : List (Nat × Account) → Nat → Option Account
  | [], _ => none
  | (i, a) :: rest, idx => if i = idx then some a else findAccount rest idx

/-- Modelled from the spec: the StateDB account store (the KV layer of
§4.C, as exercised by `TestStateDBWithoutMT`); the StateDB implementation
is outside `src/`. -/
structure StateDB where
  accounts : List (Nat × Account) := []
deriving DecidableEq, Repr

/-- Modelled from the spec: `CreateAccount(idx, account)` "fails with
`AccountAlreadyExists` if `idx` already present", otherwise stores the
account at `idx`. -/
def StateDB.CreateAccount (db : StateDB) (idx : Nat) (account : Account) :
    Except GoErr StateDB :=
  if (findAccount db.accounts idx).isSome then .error .errAccountAlreadyExists
  else .ok { accounts := (idx, account) :: db.accounts }

/-- Modelled from the spec: `GetAccount(idx)` "fails with `ErrNotFound`
if absent". -/
def StateDB.GetAccount (db : StateDB) (idx : Nat) : Except GoErr Account :=
  match findAccount db.accounts idx with
  | some a => .ok a
  | none => .error .errNotFound

/-! ## Theorems -/

/-- Helper: `goSlice` succeeds on in-range bounds. -/
theorem goSlice_in_range (b : List Nat) (i j : Nat) (hij : i ≤ j)
    (hj : j ≤ b.length) : goSlice b i j = some ((b.drop i).take (j - i)) := by
  simp [goSlice, hij, hj]

/-- Helper: a Keccak-256 digest has 32 bytes. -/
theorem keccak256_length (m : List Nat) : (keccak256 m).length = 32 := by
  simp [keccak256, laneToBytes]

/-- C8: `Idx.Bytes` fails with `ErrIdxOverflow` exactly when the index
exceeds `2^48 − 1`, and otherwise returns the 6-byte big-endian encoding
of the index. -/
theorem idx_bytes_overflow_iff (idx : Nat) :
    (maxIdxValue < idx → Idx.Bytes idx = .error .errIdxOverflow) ∧
    (idx ≤ maxIdxValue → Idx.Bytes idx = .ok (beBytes6 idx)) := by
  constructor
  · intro h
    simp [Idx.Bytes, h]
  · intro h
    have hle : idx ≤ 0xffffffffffff := h
    simp [Idx.Bytes, Nat.not_lt.2 h, goPutUint64BE, beBytes6]
    omega

/-- C8 witness: `2^48` overflows, `300` serializes to its big-endian bytes. -/
theorem idx_bytes_overflow_iff_witness :
    Idx.Bytes (2 ^ 48) = .error .errIdxOverflow ∧
    Idx.Bytes 300 = .ok (beBytes6 300) :=
  ⟨(idx_bytes_overflow_iff (2 ^ 48)).1 (by norm_num [maxIdxValue]),
   (idx_bytes_overflow_iff 300).2 (by norm_num [maxIdxValue])⟩

/-- C9: `CreateAccount` fails with `AccountAlreadyExists` whenever an
account is already stored at `idx` — and `GetAccount` still returns the
previously stored account — while creation at a fresh `idx` succeeds and
stores the account. -/
theorem createAccount_duplicate_rejected (db : StateDB) (idx : Nat) (acc : Account) :
    (∀ a, db.GetAccount idx = .ok a →
      db.CreateAccount idx acc = .error .errAccountAlreadyExists ∧
      db.GetAccount idx = .ok a) ∧
    (db.GetAccount idx = .error .errNotFound →
      ∃ db2, db.CreateAccount idx acc = .ok db2 ∧ db2.GetAccount idx = .ok acc) := by
  constructor
  · intro a ha
    have hf : (findAccount db.accounts idx).isSome := by
      unfold StateDB.GetAccount at ha
      cases hh : findAccount db.accounts idx <;> simp [hh] at ha ⊢
    exact ⟨by simp [StateDB.CreateAccount, hf], ha⟩
  · intro h
    have hf : findAccount db.accounts idx = none := by
      unfold StateDB.GetAccount at h
      cases hh : findAccount db.accounts idx
      · rfl
      · simp [hh] at h
    refine ⟨{ accounts := (idx, acc) :: db.accounts }, ?_, ?_⟩
    · simp [StateDB.CreateAccount, hf]
    · simp [StateDB.GetAccount, findAccount]

/-- C9 witness: with an account already at `Idx = 256`, a second create
fails with `AccountAlreadyExists` and the stored account is unchanged;
creating at a fresh `Idx = 256` in an empty store succeeds. -/
theorem createAccount_duplicate_rejected_witness :
    (StateDB.CreateAccount ⟨[(256, {})]⟩ 256 {} = .error .errAccountAlreadyExists ∧
      StateDB.GetAccount ⟨[(256, {})]⟩ 256 = .ok {}) ∧
    ∃ db2, StateDB.CreateAccount ⟨[]⟩ 256 {} = .ok db2 ∧
      db2.GetAccount 256 = .ok {} :=
  ⟨(createAccount_duplicate_rejected ⟨[(256, {})]⟩ 256 {}).1 {} rfl,
   (createAccount_duplicate_rejected ⟨[]⟩ 256 {}).2 rfl⟩

/-- C5: `SetID` fails exactly when the required queue/batch identifier is
absent: with `UserOrigin = true` it fails iff `ToForgeL1TxsNum` is nil,
with `UserOrigin = false` it fails iff `BatchNum` is nil; otherwise it
succeeds and writes the `TxID`. -/
theorem setID_fails_iff_missing (tx : L1Tx) :
    (tx.userOrigin = true → tx.toForgeL1TxsNum = none →
      tx.SetID = .error .errNilToForgeL1TxsNum) ∧
    (∀ n, tx.userOrigin = true → tx.toForgeL1TxsNum = some n →
      tx.SetID = .ok { tx with
        txID := TxIDPrefixL1UserTx ::
            keccak256 (goPutUint64BE (toUint64 n) ++
              goPutUint16BE (toUint16 tx.position)) }) ∧
    (tx.userOrigin = false → tx.batchNum = none →
      tx.SetID = .error .errNilBatchNum) ∧
    (∀ bn, tx.userOrigin = false → tx.batchNum = some bn →
      tx.SetID = .ok { tx with
        txID := TxIDPrefixL1CoordTx ::
            keccak256 (goPutUint64BE (toUint64 bn) ++
              goPutUint16BE (toUint16 tx.position)) }) := by
  refine ⟨?_, ?_, ?_, ?_⟩ <;> intros <;> simp_all [L1Tx.SetID]

/-- C5 witness: a user tx with nil `ToForgeL1TxsNum` fails; one with
`ToForgeL1TxsNum = 7` gets its `TxID` written. -/
theorem setID_fails_iff_missing_witness :
    ({ userOrigin := true } : L1Tx).SetID = .error .errNilToForgeL1TxsNum ∧
    ({ userOrigin := true, toForgeL1TxsNum := some 7 } : L1Tx).SetID =
      .ok { userOrigin := true
            toForgeL1TxsNum := some 7
            txID := TxIDPrefixL1UserTx ::
                keccak256 (goPutUint64BE (toUint64 7) ++
                  goPutUint16BE (toUint16 0)) } :=
  ⟨(setID_fails_iff_missing _).1 rfl rfl,
   (setID_fails_iff_missing _).2.1 7 rfl rfl⟩

/-- C6: the `TxID` written by `SetID` is a pure function of
`(UserOrigin, ToForgeL1TxsNum | BatchNum, Position)`: two txs agreeing on
those fields receive identical TxIDs, whatever their other fields. -/
theorem txID_pure (tx1 tx2 tx1' tx2' : L1Tx)
    (ho : tx1.userOrigin = tx2.userOrigin)
    (hp : tx1.position = tx2.position)
    (hf : tx1.userOrigin = true → tx1.toForgeL1TxsNum = tx2.toForgeL1TxsNum)
    (hb : tx1.userOrigin = false → tx1.batchNum = tx2.batchNum)
    (h1 : tx1.SetID = .ok tx1') (h2 : tx2.SetID = .ok tx2') :
    tx1'.txID = tx2'.txID := by
  by_cases hu : tx1.userOrigin = true
  · have hu2 : tx2.userOrigin = true := by rw [← ho]; exact hu
    cases hn : tx1.toForgeL1TxsNum with
    | none => simp [L1Tx.SetID, hu, hn] at h1
    | some n =>
      have hn2 : tx2.toForgeL1TxsNum = some n := by rw [← hf hu]; exact hn
      simp only [L1Tx.SetID, hu, hu2, hn, hn2, if_true, Except.ok.injEq] at h1 h2
      subst h1
      subst h2
      simp [hp]
  · have hu1 : tx1.userOrigin = false := by simp at hu; exact hu
    have hu2 : tx2.userOrigin = false := by rw [← ho]; exact hu1
    cases hn : tx1.batchNum with
    | none => simp [L1Tx.SetID, hu1, hn] at h1
    | some bn =>
      have hn2 : tx2.batchNum = some bn := by rw [← hb hu1]; exact hn
      simp only [L1Tx.SetID, hu1, hu2, hn, hn2, Bool.false_eq_true, if_false,
        Except.ok.injEq] at h1 h2
      subst h1
      subst h2
      simp [hp]

/-- C6 witness: two user txs sharing `(UserOrigin, ToForgeL1TxsNum,
Position)` but with different `FromIdx`, `ToIdx`, amounts and addresses
get the same `TxID`. -/
theorem txID_pure_witness :
    ∃ tx1' tx2',
      ({ userOrigin := true, toForgeL1TxsNum := some 5, position := 2,
         fromIdx := 256, toIdx := 1, amount := some 10 } : L1Tx).SetID = .ok tx1' ∧
      ({ userOrigin := true, toForgeL1TxsNum := some 5, position := 2,
         fromIdx := 999, toIdx := 0, depositAmount := some 77,
         fromEthAddr := List.replicate 20 3 } : L1Tx).SetID = .ok tx2' ∧
      tx1'.txID = tx2'.txID :=
  ⟨_, _, rfl, rfl, txID_pure
    { userOrigin := true, toForgeL1TxsNum := some 5, position := 2,
      fromIdx := 256, toIdx := 1, amount := some 10 }
    { userOrigin := true, toForgeL1TxsNum := some 5, position := 2,
      fromIdx := 999, toIdx := 0, depositAmount := some 77,
      fromEthAddr := List.replicate 20 3 }
    _ _ rfl rfl (fun _ => rfl) (fun _ => rfl) rfl rfl⟩

/-- C4 (amended): for a user-origin tx with `ToForgeL1TxsNum` set, `SetID`
writes a 33-byte `TxID` whose byte 0 is the L1User prefix `0x00` and whose
bytes 1..32 are Keccak256 of the preimage
`ToForgeL1TxsNum(8 BE) ‖ Position(2 BE)` — the prefix byte is stored but
is NOT part of the hashed preimage; dually for coordinator txs with
prefix `0x01` and `BatchNum`. -/
theorem setID_preimage_unprefixed (tx : L1Tx) :
    (∀ n, tx.userOrigin = true → tx.toForgeL1TxsNum = some n →
      ∃ tx', tx.SetID = .ok tx' ∧
        tx'.txID.length = 33 ∧
        tx'.txID.take 1 = [TxIDPrefixL1UserTx] ∧
        tx'.txID.drop 1 =
          keccak256 (goPutUint64BE (toUint64 n) ++
            goPutUint16BE (toUint16 tx.position))) ∧
    (∀ bn, tx.userOrigin = false → tx.batchNum = some bn →
      ∃ tx', tx.SetID = .ok tx' ∧
        tx'.txID.length = 33 ∧
        tx'.txID.take 1 = [TxIDPrefixL1CoordTx] ∧
        tx'.txID.drop 1 =
          keccak256 (goPutUint64BE (toUint64 bn) ++
            goPutUint16BE (toUint16 tx.position))) := by
  constructor
  · intro n hu hn
    refine ⟨{ tx with
        txID := TxIDPrefixL1UserTx ::
            keccak256 (goPutUint64BE (toUint64 n) ++
              goPutUint16BE (toUint16 tx.position)) },
      by simp [L1Tx.SetID, hu, hn], ?_, rfl, rfl⟩
    simp [keccak256_length]
  · intro bn hu hn
    refine ⟨{ tx with
        txID := TxIDPrefixL1CoordTx ::
            keccak256 (goPutUint64BE (toUint64 bn) ++
              goPutUint16BE (toUint16 tx.position)) },
      by simp [L1Tx.SetID, hu, hn], ?_, rfl, rfl⟩
    simp [keccak256_length]

/-- C4 witness: a user tx with `ToForgeL1TxsNum = 7`, `Position = 3`. -/
theorem setID_preimage_unprefixed_witness :
    ∃ tx', ({ userOrigin := true, toForgeL1TxsNum := some 7,
              position := 3 } : L1Tx).SetID = .ok tx' ∧
      tx'.txID.length = 33 ∧
      tx'.txID.take 1 = [TxIDPrefixL1UserTx] ∧
      tx'.txID.drop 1 =
        keccak256 (goPutUint64BE (toUint64 7) ++ goPutUint16BE (toUint16 3)) :=
  (setID_preimage_unprefixed
    { userOrigin := true, toForgeL1TxsNum := some 7, position := 3 }).1 7 rfl rfl

set_option maxRecDepth 100000 in
/-- C4 counterexample: at `ToForgeL1TxsNum = 0`, `Position = 0` the code
hashes the 10-byte preimage `ToForgeL1TxsNum(8 BE) ‖ Position(2 BE)` (all
zero bytes) without the domain prefix byte, and the resulting digest
differs from Keccak256 of the spec's prefixed 11-byte preimage
`0x00 ‖ ToForgeL1TxsNum(8 BE) ‖ Position(2 BE)`. -/
theorem setID_prefixed_preimage_cex :
    ({ userOrigin := true, toForgeL1TxsNum := some 0 } : L1Tx).SetID =
      .ok { userOrigin := true
            toForgeL1TxsNum := some 0
            txID := TxIDPrefixL1UserTx :: keccak256 (List.replicate 10 0) } ∧
    keccak256 (List.replicate 10 0) ≠
      keccak256 (TxIDPrefixL1UserTx :: List.replicate 10 0) := by
  constructor
  · have h10 : goPutUint64BE (toUint64 0) ++ goPutUint16BE (toUint16 0) =
        List.replicate 10 0 := by decide
    simp [L1Tx.SetID, h10]
  · decide

/-- C7: `SetType` is idempotent — if it succeeds, a second run on the
resulting tx succeeds and returns that tx unchanged. -/
theorem setType_idempotent (tx tx' : L1Tx) (h : tx.SetType = some (.ok tx')) :
    tx'.SetType = some (.ok tx') := by
  unfold L1Tx.SetType at h ⊢
  by_cases h0 : tx.fromIdx = 0
  · by_cases ht0 : tx.toIdx = 0
    · simp [h0, ht0] at h
      subst h
      simp [h0, ht0]
    · by_cases ht256 : tx.toIdx ≥ IdxUserThreshold
      · simp [h0, ht0, ht256] at h
        subst h
        simp [h0, ht0, ht256]
      · simp [h0, ht0, ht256] at h
  · by_cases h256 : tx.fromIdx ≥ IdxUserThreshold
    · by_cases ht0 : tx.toIdx = 0
      · simp [h0, h256, ht0] at h
        subst h
        simp [h0, h256, ht0]
      · by_cases ht1 : tx.toIdx = 1
        · simp [h0, h256, ht0, ht1] at h
          subst h
          simp [h0, h256, ht0, ht1]
        · by_cases ht256 : tx.toIdx ≥ IdxUserThreshold
          · cases hd : tx.depositAmount with
            | none => simp [h0, h256, ht0, ht1, ht256, hd] at h
            | some d =>
              by_cases hz : goBigIntInt64 d = 0
              · simp [h0, h256, ht0, ht1, ht256, hd, hz] at h
                subst h
                simp [h0, h256, ht0, ht1, ht256, hd, hz]
              · simp [h0, h256, ht0, ht1, ht256, hd, hz] at h
                subst h
                simp [h0, h256, ht0, ht1, ht256, hd, hz]
          · simp [h0, h256, ht0, ht1, ht256] at h
    · simp [h0, h256] at h

/-- C7 witness: a `Deposit`-shaped tx; rerunning `SetType` on the typed
result returns it unchanged. -/
theorem setType_idempotent_witness :
    ({ fromIdx := 256, txType := some .TxTypeDeposit } : L1Tx).SetType =
      some (.ok { fromIdx := 256, txType := some .TxTypeDeposit }) :=
  setType_idempotent { fromIdx := 256 }
    { fromIdx := 256, txType := some .TxTypeDeposit } (by decide)

/-- Helper: the Go `Int64()` truncation of a big integer is zero exactly
when the integer is divisible by `2^64`. -/
theorem goBigIntInt64_eq_zero_iff (x : Int) :
    goBigIntInt64 x = 0 ↔ x % (2 ^ 64 : Int) = 0 := by
  simp only [goBigIntInt64]
  simp only [show (2 : Int) ^ 64 = 18446744073709551616 from by norm_num,
    show (2 : Nat) ^ 64 = 18446744073709551616 from by norm_num,
    show (2 : Nat) ^ 63 = 9223372036854775808 from by norm_num]
  split_ifs <;> omega

/-- C1 (amended): `SetType` assigns types per the spec table over
`(FromIdx, ToIdx, DepositAmount)` and rejects every combination outside
it; in the `FromIdx ≥ 256, ToIdx ≥ 256` rows the code keys on the int64
truncation of `DepositAmount`, i.e. on `DepositAmount mod 2^64` being
zero (which agrees with the spec's `0` versus `> 0` split for all
`DepositAmount < 2^64`). -/
theorem setType_table (tx : L1Tx) :
    (tx.fromIdx = 0 → tx.toIdx = 0 →
      tx.SetType = some (.ok { tx with txType := some .TxTypeCreateAccountDeposit })) ∧
    (tx.fromIdx = 0 → 256 ≤ tx.toIdx →
      tx.SetType = some (.ok { tx with txType := some .TxTypeCreateAccountDepositTransfer })) ∧
    (256 ≤ tx.fromIdx → tx.toIdx = 0 →
      tx.SetType = some (.ok { tx with txType := some .TxTypeDeposit })) ∧
    (256 ≤ tx.fromIdx → tx.toIdx = 1 →
      tx.SetType = some (.ok { tx with txType := some .TxTypeForceExit })) ∧
    (∀ d, tx.depositAmount = some d → 256 ≤ tx.fromIdx → 256 ≤ tx.toIdx →
      d % (2 ^ 64 : Int) = 0 →
      tx.SetType = some (.ok { tx with txType := some .TxTypeForceTransfer })) ∧
    (∀ d, tx.depositAmount = some d → 256 ≤ tx.fromIdx → 256 ≤ tx.toIdx →
      d % (2 ^ 64 : Int) ≠ 0 →
      tx.SetType = some (.ok { tx with txType := some .TxTypeDepositTransfer })) ∧
    (1 ≤ tx.fromIdx → tx.fromIdx < 256 →
      tx.SetType = some (.error (.errInvalidFromIdx tx.fromIdx))) ∧
    (tx.fromIdx = 0 → 1 ≤ tx.toIdx → tx.toIdx < 256 →
      tx.SetType = some (.error (.errInvalidToIdx tx.toIdx))) ∧
    (256 ≤ tx.fromIdx → 2 ≤ tx.toIdx → tx.toIdx < 256 →
      tx.SetType = some (.error (.errInvalidToIdx tx.toIdx))) := by
  refine ⟨?_, ?_, ?_, ?_, ?_, ?_, ?_, ?_, ?_⟩
  · intro h0 ht
    simp [L1Tx.SetType, h0, ht]
  · intro h0 ht
    have ht0 : tx.toIdx ≠ 0 := by omega
    simp [L1Tx.SetType, h0, ht0, IdxUserThreshold, UserThreshold, ht]
  · intro hf ht
    have h0 : tx.fromIdx ≠ 0 := by omega
    simp [L1Tx.SetType, h0, ht, IdxUserThreshold, UserThreshold, hf]
  · intro hf ht
    have h0 : tx.fromIdx ≠ 0 := by omega
    have ht0 : tx.toIdx ≠ 0 := by omega
    simp [L1Tx.SetType, h0, ht0, ht, IdxUserThreshold, UserThreshold, hf]
  · intro d hd hf ht hz
    have hz' : goBigIntInt64 d = 0 := (goBigIntInt64_eq_zero_iff d).mpr hz
    have h0 : tx.fromIdx ≠ 0 := by omega
    have ht0 : tx.toIdx ≠ 0 := by omega
    have ht1 : tx.toIdx ≠ 1 := by omega
    simp [L1Tx.SetType, h0, ht0, ht1, IdxUserThreshold, UserThreshold, hf, ht, hd, hz']
  · intro d hd hf ht hz
    have hz' : ¬ goBigIntInt64 d = 0 := fun h => hz ((goBigIntInt64_eq_zero_iff d).mp h)
    have h0 : tx.fromIdx ≠ 0 := by omega
    have ht0 : tx.toIdx ≠ 0 := by omega
    have ht1 : tx.toIdx ≠ 1 := by omega
    simp [L1Tx.SetType, h0, ht0, ht1, IdxUserThreshold, UserThreshold, hf, ht, hd, hz']
  · intro h1 h2
    have h0 : tx.fromIdx ≠ 0 := by omega
    have hf : ¬ IdxUserThreshold ≤ tx.fromIdx := by
      simp only [IdxUserThreshold, UserThreshold]
      omega
    simp [L1Tx.SetType, h0, hf]
  · intro h0 h1 h2
    have ht0 : tx.toIdx ≠ 0 := by omega
    have ht : ¬ IdxUserThreshold ≤ tx.toIdx := by
      simp only [IdxUserThreshold, UserThreshold]
      omega
    simp [L1Tx.SetType, h0, ht0, ht]
  · intro hf h1 h2
    have h0 : tx.fromIdx ≠ 0 := by omega
    have ht0 : tx.toIdx ≠ 0 := by omega
    have ht1 : tx.toIdx ≠ 1 := by omega
    have ht : ¬ (256 ≤ tx.toIdx) := by omega
    simp [L1Tx.SetType, h0, ht0, ht1, ht, IdxUserThreshold, UserThreshold, hf]

/-- C1 counterexample: a tx with `FromIdx = 256`, `ToIdx = 256` and
`DepositAmount = 2^64 > 0` is typed `ForceTransfer` by the code (its
int64 truncation is 0), where the claim's table row
`(≥256, ≥256, >0) → DepositTransfer` demands `DepositTransfer`. -/
theorem setType_table_cex :
    (0 : Int) < 2 ^ 64 ∧
    ({ fromIdx := 256, toIdx := 256,
       depositAmount := some (2 ^ 64) } : L1Tx).SetType =
      some (.ok { fromIdx := 256, toIdx := 256, depositAmount := some (2 ^ 64),
                  txType := some .TxTypeForceTransfer }) ∧
    TxType.TxTypeForceTransfer ≠ TxType.TxTypeDepositTransfer :=
  ⟨by norm_num, by decide, by decide⟩

/-- C1 witness: the `(0,0)` row gives `CreateAccountDeposit`; the
`(≥256, ≥256, 5)` row gives `DepositTransfer`. -/
theorem setType_table_witness :
    ({} : L1Tx).SetType =
      some (.ok { txType := some .TxTypeCreateAccountDeposit }) ∧
    ({ fromIdx := 256, toIdx := 300,
       depositAmount := some 5 } : L1Tx).SetType =
      some (.ok { fromIdx := 256, toIdx := 300, depositAmount := some 5,
                  txType := some .TxTypeDepositTransfer }) :=
  ⟨(setType_table {}).1 rfl rfl,
   (setType_table _).2.2.2.2.2.1 5 rfl (by decide) (by decide) (by decide)⟩

/-- Helper: big-endian accumulation ignores two leading zero bytes. -/
theorem goUint64BE_pad (l : List Nat) :
    goUint64BE (List.replicate 2 0 ++ l) = goUint64BE l := by
  simp [goUint64BE, List.replicate]

/-- Helper: `BytesToAddress` is the identity on 20-byte inputs. -/
theorem bytesToAddress_20 (l : List Nat) (h : l.length = 20) :
    BytesToAddress l = l := by
  simp [BytesToAddress, h]

/-- Helper: on a 78-byte input `L1UserTxFromBytes` succeeds, decoding
each field at its normative offset. -/
theorem l1UserTxDecode78 (b : List Nat) (h : b.length = 78) :
    L1UserTxFromBytes b =
      some (.ok { userOrigin := true
                  fromEthAddr := b.take 20
                  fromBJJ := ((b.drop 20).take 32).reverse
                  fromIdx := goUint64BE ((b.drop 52).take 6)
                  depositAmount := some (float40BigInt ((b.drop 58).take 5))
                  amount := some (float40BigInt ((b.drop 63).take 5))
                  toIdx := goUint64BE ((b.drop 72).take 6) }) := by
  have h20 : goSlice b 0 20 = some (b.take 20) := by simp [goSlice, h]
  have h52 : goSlice b 20 52 = some ((b.drop 20).take 32) := by simp [goSlice, h]
  have h58 : goSlice b 52 58 = some ((b.drop 52).take 6) := by simp [goSlice, h]
  have h63 : goSlice b 58 63 = some ((b.drop 58).take 5) := by simp [goSlice, h]
  have h68 : goSlice b 63 68 = some ((b.drop 63).take 5) := by simp [goSlice, h]
  have h78 : goSlice b 72 78 = some ((b.drop 72).take 6) := by simp [goSlice, h]
  have hIdx1 : IdxFromBytes ((b.drop 52).take 6) =
      .ok (goUint64BE ((b.drop 52).take 6)) := by
    rw [IdxFromBytes, if_neg, goUint64BE_pad]
    simp [IdxBytesLen, h]
  have hIdx2 : IdxFromBytes ((b.drop 72).take 6) =
      .ok (goUint64BE ((b.drop 72).take 6)) := by
    rw [IdxFromBytes, if_neg, goUint64BE_pad]
    simp [IdxBytesLen, h]
  have hAddr : BytesToAddress (b.take 20) = b.take 20 :=
    bytesToAddress_20 _ (by simp [h])
  simp [L1UserTxFromBytes, RollupConstL1UserTotalBytes, h, h20, h52, h58, h63,
    h68, h78, hIdx1, hIdx2, SwapEndianness, hAddr]

/-- C2: `L1UserTxFromBytes` accepts exactly 78-byte inputs — any other
length yields the length error — and decodes `FromEthAddr` from bytes
[0:20], `FromBJJ` (endianness-swapped) from [20:52], `FromIdx` from
[52:58], `DepositAmount` (Float40) from [58:63], `Amount` (Float40) from
[63:68] and `ToIdx` from [72:78]. -/
theorem l1UserTxFromBytes_layout (b : List Nat) :
    (b.length ≠ 78 →
      L1UserTxFromBytes b = some (.error (.errParseL1TxLen 68 b.length))) ∧
    (b.length = 78 →
      L1UserTxFromBytes b =
        some (.ok { userOrigin := true
                    fromEthAddr := b.take 20
                    fromBJJ := ((b.drop 20).take 32).reverse
                    fromIdx := goUint64BE ((b.drop 52).take 6)
                    depositAmount := some (float40BigInt ((b.drop 58).take 5))
                    amount := some (float40BigInt ((b.drop 63).take 5))
                    toIdx := goUint64BE ((b.drop 72).take 6) })) := by
  constructor
  · intro h
    simp [L1UserTxFromBytes, RollupConstL1UserTotalBytes, h]
  · exact l1UserTxDecode78 b

/-- C2 witness: a 5-byte input fails with the length error; the 78-byte
input `0, 1, …, 77` decodes to the fields at the normative offsets. -/
theorem l1UserTxFromBytes_layout_witness :
    L1UserTxFromBytes (List.replicate 5 0) =
      some (.error (.errParseL1TxLen 68 5)) ∧
    L1UserTxFromBytes (List.range 78) =
      some (.ok { userOrigin := true
                  fromEthAddr := (List.range 78).take 20
                  fromBJJ := (((List.range 78).drop 20).take 32).reverse
                  fromIdx := goUint64BE (((List.range 78).drop 52).take 6)
                  depositAmount :=
                    some (float40BigInt (((List.range 78).drop 58).take 5))
                  amount := some (float40BigInt (((List.range 78).drop 63).take 5))
                  toIdx := goUint64BE (((List.range 78).drop 72).take 6) }) :=
  ⟨(l1UserTxFromBytes_layout (List.replicate 5 0)).1 (by decide),
   (l1UserTxFromBytes_layout (List.range 78)).2 (by simp)⟩

/-- C3: on every input passing the length check
(`len(b) = RollupConstL1UserTotalBytes`), all slice accesses — including
`b[72:78]` — are in bounds and `L1UserTxFromBytes` returns a result
(decoded tx or error) without panicking. -/
theorem l1UserTxFromBytes_total (b : List Nat)
    (h : b.length = RollupConstL1UserTotalBytes) :
    ∃ r, L1UserTxFromBytes b = some r := by
  refine ⟨_, l1UserTxDecode78 b ?_⟩
  simpa [RollupConstL1UserTotalBytes] using h

/-- C3 witness: the 78-byte all-zero input decodes without panic. -/
theorem l1UserTxFromBytes_total_witness :
    ∃ r, L1UserTxFromBytes (List.replicate 78 0) = some r :=
  l1UserTxFromBytes_total (List.replicate 78 0) (by decide)

/-- C10: every tx successfully returned by `L1CoordinatorTxFromBytes`
has `UserOrigin = false`, `Amount = 0` and `DepositAmount = 0`; its
`FromEthAddr` is the internal sentinel address when the leading signature
byte `v` is 0, and the ECDSA-recovered address (HashToSign → Ecrecover →
UnmarshalPubkey → PubkeyToAddress) when `v > 0`. -/
theorem l1CoordinatorTxFromBytes_post (ops : CoordCrypto) (b : List Nat)
    (chainID : Nat) (addr : List Nat) (tx : L1Tx)
    (h : L1CoordinatorTxFromBytes ops b chainID addr = some (.ok tx)) :
    tx.userOrigin = false ∧ tx.amount = some 0 ∧ tx.depositAmount = some 0 ∧
    (b.getD 0 0 = 0 → tx.fromEthAddr = RollupConstEthAddressInternalOnly) ∧
    (0 < b.getD 0 0 → ∃ hm pkB pk,
      ops.hashToSign (SwapEndianness ((b.drop 65).take 32))
        (chainID % 2 ^ 64 % 2 ^ 16) addr = .ok hm ∧
      ops.ecrecover hm ((b.drop 33).take 32 ++ (b.drop 1).take 32 ++
        [(b.getD 0 0 + 256 - 27) % 256]) = .ok pkB ∧
      ops.unmarshalPubkey pkB = .ok pk ∧
      tx.fromEthAddr = ops.pubkeyToAddress pk) := by
  by_cases hlen : b.length = RollupConstL1CoordinatorTotalBytes
  · have hs1 : goSlice b 1 33 = some ((b.drop 1).take 32) := by
      simp [goSlice, hlen, RollupConstL1CoordinatorTotalBytes]
    have hs33 : goSlice b 33 65 = some ((b.drop 33).take 32) := by
      simp [goSlice, hlen, RollupConstL1CoordinatorTotalBytes]
    have hs65 : goSlice b 65 97 = some ((b.drop 65).take 32) := by
      simp [goSlice, hlen, RollupConstL1CoordinatorTotalBytes]
    simp only [L1CoordinatorTxFromBytes, hlen, ne_eq, not_true_eq_false,
      if_false, hs1, hs33, hs65, Option.some_bind] at h
    by_cases hv : 0 < b.getD 0 0
    · simp only [hv, if_true] at h
      cases hh : CoordCrypto.hashToSign ops (SwapEndianness ((b.drop 65).take 32))
          (chainID % 2 ^ 64 % 2 ^ 16) addr with
      | error e =>
        simp only [hh] at h
        simp at h
      | ok hm =>
        simp only [hh] at h
        cases he : CoordCrypto.ecrecover ops hm ((b.drop 33).take 32 ++
            (b.drop 1).take 32 ++ [(b.getD 0 0 + 256 - 27) % 256]) with
        | error e =>
          simp only [he] at h
          simp at h
        | ok pkB =>
          simp only [he] at h
          cases hu : CoordCrypto.unmarshalPubkey ops pkB with
          | error e =>
            simp only [hu] at h
            simp at h
          | ok pk =>
            simp only [hu, Option.some.injEq, Except.ok.injEq] at h
            subst h
            refine ⟨rfl, rfl, rfl, ?_, ?_⟩
            · intro h0
              omega
            · intro _
              exact ⟨hm, pkB, pk, rfl, he, hu, rfl⟩
    · simp only [hv, if_false] at h
      simp only [Option.some.injEq, Except.ok.injEq] at h
      subst h
      refine ⟨rfl, rfl, rfl, fun _ => rfl, ?_⟩
      intro hpos
      exact absurd hpos hv
  · simp [L1CoordinatorTxFromBytes, hlen] at h

/-- C10 witness: the all-zero 101-byte input (so `v = 0`) decodes to a
coordinator tx with zero amounts and the sentinel address. -/
theorem l1CoordinatorTxFromBytes_post_witness :
    ∃ tx, L1CoordinatorTxFromBytes
        ⟨fun _ _ _ => .ok [], fun _ _ => .ok [], fun _ => .ok [], fun _ => []⟩
        (List.replicate 101 0) 1 [] = some (.ok tx) ∧
      tx.userOrigin = false ∧ tx.amount = some 0 ∧ tx.depositAmount = some 0 ∧
      tx.fromEthAddr = RollupConstEthAddressInternalOnly := by
  refine ⟨_, rfl, ?_⟩
  have hp := l1CoordinatorTxFromBytes_post
    ⟨fun _ _ _ => .ok [], fun _ _ => .ok [], fun _ => .ok [], fun _ => []⟩
    (List.replicate 101 0) 1 [] _ rfl
  exact ⟨hp.1, hp.2.1, hp.2.2.1, hp.2.2.2.1 rfl⟩
